import Mathlib

/-!
Verification development for the browser-automation content script
(src/backend/chrome_ext/content.js).

The script runs against the live browser DOM.  The embedding models the
browser environment explicitly: an `Elem` is the record of the DOM facts the
script reads from an element (attributes, computed style, bounding box,
parent chain), and a `Page` packages the results of the fixed
`document.querySelectorAll` queries the script issues, in document order,
together with a `document.querySelector` resolution table.  Every function of
the script is translated directly; browser primitives (`CSS.escape`,
`String.prototype.trim`, regular-expression tests, `Array.prototype.sort`)
are modelled by executable Lean functions with the same observable behaviour.
Timers are modelled denotationally: a wait primitive returns the duration it
sleeps; polling loops are evaluated against a DOM that is static for the
duration of the wait (the embedding is of a single synchronous world state).
-/

/-! ## String helpers (models of the JS string primitives used) -/

/-- Whitespace test matching the JS regex class `\s` on the characters that
occur in practice (space, tab, LF, CR, FF, VT). -/
def isWsChar (c : Char) : Bool :=
  c = ' ' || c = Char.ofNat 9 || c = Char.ofNat 10 || c = Char.ofNat 13 ||
  c = Char.ofNat 12 || c = Char.ofNat 11

/-- Model of `String.prototype.trim`: drop leading and trailing whitespace. -/
def jsTrim (s : String) : String :=
  (((s.toList.dropWhile isWsChar).reverse.dropWhile isWsChar).reverse).asString

/-- Core of the model of `.replace(/\s+/g, " ")`: collapse every maximal run
of whitespace characters to a single space.  The flag records whether the
previous character was part of a whitespace run already emitted. -/
def collapseGo : Bool → List Char → List Char
  | _, [] => []
  | inRun, c :: rest =>
    if isWsChar c then
      if inRun then collapseGo true rest else ' ' :: collapseGo true rest
    else c :: collapseGo false rest

/-- Model of `s.replace(/\s+/g, " ")`. -/
def collapseWs (s : String) : String :=
  (collapseGo false s.toList).asString

/-- Model of `String.prototype.toLowerCase` (character-wise lowering). -/
def strToLower (s : String) : String :=
  (s.toList.map Char.toLower).asString

/-- Model of `s.slice(0, n)` on strings. -/
def strTake (s : String) (n : Nat) : String :=
  (s.toList.take n).asString

/-- Model of `hay.includes(needle)`. -/
def jsIncludes (hay needle : String) : Bool :=
  decide (needle.toList <:+: hay.toList)

/-- Model of `hay.startsWith(needle)`. -/
def jsStartsWith (hay needle : String) : Bool :=
  decide (needle.toList <+: hay.toList)

/-- Hex escape of one character, as emitted by `CSS.escape`. -/
def hexEscapeChar (c : Char) : String :=
  "\\" ++ (Nat.toDigits 16 c.toNat).asString ++ " "

/-- Model of the browser primitive `CSS.escape` (the CSSOM "serialize an
identifier" algorithm, character by character). -/
def cssEscape (s : String) : String :=
  let cs := s.toList
  String.join (cs.enum.map (fun p =>
    let i := p.1
    let c := p.2
    if c = Char.ofNat 0 then (Char.ofNat 0xFFFD).toString
    else if c.toNat ≤ 0x1f || c.toNat = 0x7f then hexEscapeChar c
    else if c.isDigit && (i = 0 || (i = 1 && cs.head? = some '-')) then
      hexEscapeChar c
    else if c = '-' && i = 0 && cs.length = 1 then "\\-"
    else if c.toNat ≥ 0x80 || c = '-' || c = '_' || c.isAlphanum then c.toString
    else "\\" ++ c.toString))

/-! ## DOM model -/

/-- One step of an element's parent chain: `idx` is the 0-based position of
the lower node among this parent's element children (what
`Array.prototype.indexOf.call(parent.children, n)` returns), and
`parentTag`/`parentType` are the parent's `tagName` and `nodeType`. -/
structure AncStep where
  idx : Nat
  parentTag : String
  parentType : Nat := 1
deriving DecidableEq

/-- The computed-style facts the script reads (`getComputedStyle`).  The
`opacity` field is the numeric value of the opacity string (the script parses
it with `parseFloat(cs.opacity || "1")`). -/
structure Style where
  display : String := ""
  visibility : String := ""
  opacity : Rat := 1
deriving DecidableEq

/-- Bounding-box facts read from `getBoundingClientRect`. -/
structure Rect where
  width : Rat := 10
  height : Rat := 10
deriving DecidableEq

/-- The record of DOM facts about one element that the content script reads.
`style = none` models a falsy `getComputedStyle` result and `rect = none` a
missing `getBoundingClientRect`; `ancestors` lists the parent chain from the
immediate parent upward (empty for a parentless node). -/
structure Elem where
  nodeType : Nat := 1
  tagName : String := "DIV"
  id : String := ""
  attrHidden : Bool := false
  ariaHidden : Option String := none
  attrDisabled : Bool := false
  ariaDisabled : Option String := none
  style : Option Style := none
  rect : Option Rect := none
  innerText : String := ""
  textContent : String := ""
  nameAttr : String := ""
  placeholder : String := ""
  ariaLabel : Option String := none
  titleAttr : Option String := none
  href : String := ""
  value : String := ""
  ancestors : List AncStep := []
deriving DecidableEq

/-- The document as the content script observes it: the results (in document
order) of the fixed `querySelectorAll` queries it issues, a resolution table
for `document.querySelector`, and the page-level scalars it reads. -/
structure Page where
  url : String := ""
  title : String := ""
  readyState : String := "complete"
  qButtonsLike : List Elem := []
  qLinks : List Elem := []
  qInputs : List Elem := []
  qHeadings : List Elem := []
  qTextEls : List Elem := []
  qNavLinks : List Elem := []
  qBreadcrumbs : List Elem := []
  selectorMap : List (String × Elem) := []

/-- Model of `document.querySelector`. -/
def querySelector (page : Page) (sel : String) : Option Elem :=
  page.selectorMap.lookup sel

/-! ## Visibility (isElementVisible) -/

/-- Translation of `isElementVisible` from content.js. -/
def isElementVisible (el : Elem) : Bool :=
  if el.nodeType ≠ 1 then false
  else if el.attrHidden then false
  else if el.ariaHidden = some "true" then false
  else if el.attrDisabled || el.ariaDisabled = some "true" then false
  else
    match el.style with
    | none => true
    | some cs =>
      if cs.display = "none" || cs.visibility = "hidden" || cs.opacity = 0 then
        false
      else
        match el.rect with
        | none => true
        | some r => if r.width < 2 || r.height < 2 then false else true

/-! ## Structural paths (nodeToPath) -/

/-- The `while` loop of `nodeToPath`: `room` is how many of the at most 6
path parts may still be produced (`6 - parts.length`), `tag`/`nt` are the
current node's `tagName` and `nodeType`, and `ancs` its parent chain.  Each
iteration prepends the current node's segment, so the recursion appends it
after the ancestors' segments. -/
def pathLoop (tag : String) (nt : Nat) (ancs : List AncStep) : Nat → List String
  | 0 => []
  | room + 1 =>
    if nt ≠ 1 then []
    else
      match ancs with
      | [] => [strToLower tag]
      | a :: rest =>
        pathLoop a.parentTag a.parentType rest room ++
          [strToLower tag ++ ":nth-child(" ++ toString (a.idx + 1) ++ ")"]

/-- Translation of `nodeToPath` from content.js. -/
def nodeToPath (el : Elem) : Option String :=
  if el.nodeType ≠ 1 then none
  else if el.id ≠ "" then some ("#" ++ cssEscape el.id)
  else some (String.intercalate ">" (pathLoop el.tagName el.nodeType el.ancestors 6))

/-- Modelled from the spec: one `tag:nth-child(n)` segment with `n` the
1-based position of the node among its parent's element children. -/
def mkSeg (tag : String) (idx : Nat) : String :=
  strToLower tag ++ ":nth-child(" ++ toString (idx + 1) ++ ")"

/-- Modelled from the spec: the `tag:nth-child(n)` segments of the whole
parent chain, innermost node first. -/
def zipSegs (tag : String) : List AncStep → List String
  | [] => []
  | a :: rest => mkSeg tag a.idx :: zipSegs a.parentTag rest

/-- Modelled from the spec: the lowercased tag name of the outermost node of
the chain. -/
def rootTagOf (tag : String) : List AncStep → String
  | [] => strToLower tag
  | a :: rest => rootTagOf a.parentTag rest

/-- Modelled from the spec (amended claim C2): the declarative description of
the structural path of an id-less element — outermost segment first, at most
6 segments, each inner segment `tag:nth-child(n)`, and a bare lowercased tag
name for the outermost segment when the walk reaches a parentless node within
the 6-segment budget. -/
def specSegs (el : Elem) : List String :=
  if el.ancestors.length < 6 then
    rootTagOf el.tagName el.ancestors :: (zipSegs el.tagName el.ancestors).reverse
  else
    ((zipSegs el.tagName el.ancestors).take 6).reverse

/-- Character class allowed in a lowercased tag name. -/
def isTagChar (c : Char) : Bool :=
  c.isLower || c.isDigit || c = '-'

/-- Split a character list at the first occurrence of `":nth-child("`,
returning the part before it and the part after it. -/
def nthSegSplit : List Char → Option (List Char × List Char)
  | [] => none
  | c :: rest =>
    if (":nth-child(".toList).isPrefixOf (c :: rest) then
      some ([], (c :: rest).drop 11)
    else
      match nthSegSplit rest with
      | some (pre, post) => some (c :: pre, post)
      | none => none

/-- Modelled from the spec (claim C2 as stated): whether one path segment has
exactly the form `tag:nth-child(digits)`. -/
def matchesNthChildSeg (seg : List Char) : Bool :=
  match nthSegSplit seg with
  | some (tag, post) =>
    tag ≠ [] && tag.all isTagChar && post.getLast? = some ')' &&
      post.dropLast ≠ [] && post.dropLast.all Char.isDigit
  | none => false

/-- Split a character list on a separator character. -/
def splitCharAux (sep : Char) : List Char → List Char → List (List Char)
  | [], acc => [acc.reverse]
  | c :: rest, acc =>
    if c = sep then acc.reverse :: splitCharAux sep rest []
    else splitCharAux sep rest (c :: acc)

/-- Modelled from the spec (claim C2 as stated): whether a structural path is
a chain of at most 6 `tag:nth-child(n)` segments joined by `>`. -/
def claimSegShape (s : String) : Bool :=
  let segs := splitCharAux '>' s.toList []
  segs.length ≤ 6 && segs.all matchesNthChildSeg

/-! ## Text extraction and de-duplication (safeText, dedupeBySignature) -/

/-- Translation of `safeText` from content.js: `innerText || textContent`,
trimmed, internal whitespace collapsed. -/
def safeText (el : Elem) : String :=
  collapseWs (jsTrim (if el.innerText ≠ "" then el.innerText else el.textContent))

/-- The loop of `dedupeBySignature`: `seen` is the set of signatures already
emitted (a JS `Set`, modelled as the list of its members). -/
def dedupeGo (makeSig : α → String) : List α → List String → List α
  | [], _ => []
  | x :: xs, seen =>
    let sig := makeSig x
    if sig = "" || seen.contains sig then dedupeGo makeSig xs seen
    else x :: dedupeGo makeSig xs (sig :: seen)

/-- Translation of `dedupeBySignature` from content.js. -/
def dedupeBySignature (arr : List α) (makeSig : α → String) : List α :=
  dedupeGo makeSig arr []

/-! ## Snapshot (snapshot) -/

/-- Button/heading entry of the snapshot. -/
structure BtnSummary where
  text : String
  selector : Option String
deriving DecidableEq

/-- Link entry of the snapshot (also used for nav links and breadcrumbs). -/
structure LinkSummary where
  text : String
  selector : Option String
  href : String
deriving DecidableEq

/-- Input entry of the snapshot. -/
structure InputSummary where
  name : String
  placeholder : String
  ariaLabel : String
  selector : Option String
deriving DecidableEq

/-- Short-text entry of the snapshot. -/
structure TextSummary where
  text : String
deriving DecidableEq

/-- Dedup signature of a button or heading entry: `text|||selector`. -/
def btnSig (x : BtnSummary) : String :=
  x.text ++ "|||" ++ x.selector.getD ""

/-- Dedup signature of a link-shaped entry: `text|||href`. -/
def linkSig (x : LinkSummary) : String :=
  x.text ++ "|||" ++ x.href

/-- Dedup signature of an input entry: its selector. -/
def inputSig (x : InputSummary) : String :=
  x.selector.getD ""

/-- Dedup signature of a short-text entry: the lowercased text. -/
def textSig (x : TextSummary) : String :=
  strToLower x.text

/-- The buttons category of `snapshot`: query limited to 400, visibility
filter, mapping, required-field filter, dedup by `text|||selector`, cap. -/
def snapButtons (page : Page) : List BtnSummary :=
  let base := ((page.qButtonsLike.take 400).filter isElementVisible).map
    (fun b => ({text := strTake (safeText b) 160, selector := nodeToPath b} : BtnSummary))
  let kept := base.filter (fun b => b.selector.getD "" ≠ "" && b.text ≠ "")
  (dedupeBySignature kept btnSig).take 400

/-- The links category of `snapshot`. -/
def snapLinks (page : Page) : List LinkSummary :=
  let base := ((page.qLinks.take 400).filter isElementVisible).map
    (fun a => ({text := strTake (safeText a) 200, selector := nodeToPath a,
                href := a.href} : LinkSummary))
  let kept := base.filter (fun a => a.selector.getD "" ≠ "" && a.href ≠ "")
  (dedupeBySignature kept linkSig).take 400

/-- The inputs category of `snapshot`; `name` is the JS truthiness chain
`i.name || i.id || i.placeholder || i.getAttribute("aria-label") || ""`. -/
def snapInputs (page : Page) : List InputSummary :=
  let base := ((page.qInputs.take 200).filter isElementVisible).map
    (fun i => ({name :=
                  if i.nameAttr ≠ "" then i.nameAttr
                  else if i.id ≠ "" then i.id
                  else if i.placeholder ≠ "" then i.placeholder
                  else i.ariaLabel.getD "",
                placeholder := i.placeholder,
                ariaLabel := i.ariaLabel.getD "",
                selector := nodeToPath i} : InputSummary))
  let kept := base.filter (fun i => i.selector.getD "" ≠ "")
  (dedupeBySignature kept inputSig).take 200

/-- The headings category of `snapshot`. -/
def snapHeadings (page : Page) : List BtnSummary :=
  let base := ((page.qHeadings.take 50).filter isElementVisible).map
    (fun h => ({text := strTake (safeText h) 200, selector := nodeToPath h} : BtnSummary))
  let kept := base.filter (fun h => h.selector.getD "" ≠ "" && h.text ≠ "")
  (dedupeBySignature kept btnSig).take 50

/-- The short-texts category of `snapshot` (no query pre-limit in the
source), deduplicated by lowercased text. -/
def snapTexts (page : Page) : List TextSummary :=
  let ts := ((page.qTextEls.filter isElementVisible).map safeText).filter
    (fun t => t ≠ "" && t.length ≤ 120)
  let base := ts.map (fun t => ({text := strTake t 120} : TextSummary))
  (dedupeBySignature base textSig).take 300

/-- The nav-links category of `snapshot` (untruncated text, cap 200). -/
def snapNavLinks (page : Page) : List LinkSummary :=
  let base := ((page.qNavLinks.take 200).filter isElementVisible).map
    (fun a => ({text := safeText a, selector := nodeToPath a, href := a.href} : LinkSummary))
  let kept := base.filter (fun a => a.selector.getD "" ≠ "" && a.href ≠ "")
  (dedupeBySignature kept linkSig).take 200

/-- The breadcrumbs category of `snapshot` (cap 20). -/
def snapBreadcrumbs (page : Page) : List LinkSummary :=
  let base := ((page.qBreadcrumbs.take 20).filter isElementVisible).map
    (fun a => ({text := safeText a, selector := nodeToPath a, href := a.href} : LinkSummary))
  let kept := base.filter (fun a => a.selector.getD "" ≠ "" && a.href ≠ "")
  (dedupeBySignature kept linkSig).take 20

/-- The page-state object returned by `snapshot`. -/
structure PageState where
  url : String
  title : String
  buttons : List BtnSummary
  links : List LinkSummary
  inputs : List InputSummary
  nav_links : List LinkSummary
  breadcrumbs : List LinkSummary
  headings : List BtnSummary
  texts : List TextSummary
deriving DecidableEq

/-- Translation of `snapshot` from content.js. -/
def snapshot (page : Page) : PageState :=
  { url := page.url
    title := page.title
    buttons := snapButtons page
    links := snapLinks page
    inputs := snapInputs page
    nav_links := snapNavLinks page
    breadcrumbs := snapBreadcrumbs page
    headings := snapHeadings page
    texts := snapTexts page }

/-! ## Fuzzy finder (extractContains, textCandidates, findImpl) -/

/-- Case-insensitive character comparison (for the `i` regex flag). -/
def ciCharEq (a b : Char) : Bool :=
  a.toLower = b.toLower

/-- Case-insensitive prefix test on character lists. -/
def ciPrefix : List Char → List Char → Bool
  | [], _ => true
  | _ :: _, [] => false
  | p :: ps, c :: cs => ciCharEq p c && ciPrefix ps cs

/-- The lazy part of the regex `/:contains\((['"])(.*?)\1\)/i`: scan for the
first position where the opening quote character reappears immediately
followed by `)`, returning the (shortest) captured content.  A newline stops
the match, since `.` does not match newlines. -/
def containsScanClose (q : Char) : List Char → List Char → Option (List Char)
  | _, [] => none
  | acc, c :: rest =>
    if c = q && rest.head? = some ')' then some acc.reverse
    else if c = Char.ofNat 10 then none
    else containsScanClose q (c :: acc) rest

/-- Scan of the subject for a match of `/:contains\((['"])(.*?)\1\)/i`:
try each start position left to right, as the regex engine does. -/
def extractContainsGo : List Char → Option (List Char)
  | [] => none
  | c :: rest =>
    (if ciPrefix ":contains(".toList (c :: rest) then
      match (c :: rest).drop 10 with
      | q :: afterQuote =>
        if q = Char.ofNat 39 || q = Char.ofNat 34 then
          containsScanClose q [] afterQuote
        else none
      | [] => none
    else none).orElse (fun _ => extractContainsGo rest)

/-- Translation of `extractContains` from content.js: extract the text of a
`:contains('Text')` fragment, if any. -/
def extractContains (q : String) : Option String :=
  (extractContainsGo q.toList).map List.asString

/-- Model of `raw.replace(/^a:/i, "")`: strip one leading `a:` (any case). -/
def stripAnchorMark (raw : String) : String :=
  if ciPrefix "a:".toList raw.toList then (raw.toList.drop 2).asString else raw

/-- The effective lowercased text query of `findImpl`:
`(contains || raw.replace(/^a:/i, "").trim()).toLowerCase()` applied to the
trimmed `query` argument (an empty capture is falsy and falls through). -/
def effectiveQuery (query : Option String) : String :=
  let raw := jsTrim (query.getD "")
  match extractContains raw with
  | some c => if c = "" then strToLower (jsTrim (stripAnchorMark raw)) else strToLower c
  | none => strToLower (jsTrim (stripAnchorMark raw))

/-- Translation of `textCandidates` from content.js: visible text, aria-label
and title attribute, each lowercased, skipping empty ones. -/
def textCandidates (el : Elem) : List String :=
  let t := safeText el
  let aria := jsTrim (el.ariaLabel.getD "")
  let ti := jsTrim (el.titleAttr.getD "")
  (if t ≠ "" then [strToLower t] else []) ++
    (if aria ≠ "" then [strToLower aria] else []) ++
      (if ti ≠ "" then [strToLower ti] else [])

/-- The per-text-candidate score of `findImpl`: +20 exact, +10 substring,
+3 prefix, cumulative. -/
def scoreOne (t tq : String) : Nat :=
  (if t = tq then 20 else 0) + (if jsIncludes t tq then 10 else 0) +
    (if jsStartsWith t tq then 3 else 0)

/-- Whether a word-character follows (for the regex `\b` boundary). -/
def isWordChar (c : Char) : Bool :=
  c.isAlphanum || c = '_'

/-- Occurrence test for `\bw\b` in a subject, tracking the previous
character: the occurrence must not be preceded or followed by a word
character.  The subject is already lowercase, so the `i` flag is inert. -/
def wordOccGo (w : List Char) : Option Char → List Char → Bool
  | prev, s =>
    (w.isPrefixOf s && (match prev with | none => true | some p => !isWordChar p) &&
      (match s.drop w.length with | [] => true | c :: _ => !isWordChar c)) ||
    (match s with
     | [] => false
     | c :: rest => wordOccGo w (some c) rest)

/-- Model of `/\bw\b/.test(subject)` for a literal lowercase word `w`. -/
def wordTest (w subject : String) : Bool :=
  wordOccGo w.toList none subject.toList

/-- The small fixed domain-bias bonuses of `findImpl`, computed on the
space-joined text candidates: +2 for `\bappointment\b`, +2 for
`\blab\b|\breport\b|\bresult\b`. -/
def nudgeScore (texts : List String) : Nat :=
  let st := String.intercalate " " texts
  (if wordTest "appointment" st then 2 else 0) +
    (if wordTest "lab" st || wordTest "report" st || wordTest "result" st then 2 else 0)

/-- The total score `findImpl` assigns to an element for a text query. -/
def scoreEl (tq : String) (el : Elem) : Nat :=
  let texts := textCandidates el
  (texts.map (fun t => scoreOne t tq)).sum + nudgeScore texts

/-- One entry of the `scored` array of `findImpl`. -/
structure ScoredEntry where
  el : Elem
  text : String
  score : Nat
deriving DecidableEq

/-- The scored-candidate list of `findImpl`: all visible candidates with a
nonempty text-candidate list and a positive score, in document order. -/
def findScored (page : Page) (tq : String) : List ScoredEntry :=
  (page.qButtonsLike.filter isElementVisible).filterMap (fun el =>
    let texts := textCandidates el
    if texts.isEmpty then none
    else
      let sc := scoreEl tq el
      if sc > 0 then some ({el := el, text := safeText el, score := sc} : ScoredEntry)
      else none)

/-- The order the comparator `(a, b) => b.score - a.score ||
a.text.length - b.text.length` sorts into: descending score, ties broken by
shorter visible text. -/
def scoredLEP (a b : ScoredEntry) : Prop :=
  b.score < a.score ∨ (a.score = b.score ∧ a.text.length ≤ b.text.length)

instance : DecidableRel scoredLEP := fun a b => by
  unfold scoredLEP
  infer_instance

instance : IsTotal ScoredEntry scoredLEP := by
  constructor
  intro a b
  unfold scoredLEP
  omega

instance : IsTrans ScoredEntry scoredLEP := by
  constructor
  intro a b c hab hbc
  unfold scoredLEP at hab hbc ⊢
  omega

/-- The sorted scored list of `findImpl`.  `Array.prototype.sort` with a
consistent comparator produces a list sorted by the comparator's total
preorder; it is modelled by insertion sort, which is such a sort. -/
def findSortedList (page : Page) (tq : String) : List ScoredEntry :=
  List.insertionSort scoredLEP (findScored page tq)

/-- One match returned by `findImpl`. -/
structure FindMatch where
  text : String
  selector : Option String
  href : Option String
deriving DecidableEq

/-- The result object of `findImpl`; `matchesList` is the `matches` field of the JS result (`matches` is reserved in Lean). -/
structure FindResult where
  matchesList : List FindMatch
  total : Nat
deriving DecidableEq

/-- The single argument object every tool of content.js receives (the JS   
`args`), with absent fields as `none`.  Numeric fields are rationals, the
idealisation of JS numbers used throughout this model. -/
structure Args where
  selector : Option String := none
  text : Option String := none
  value : Option String := none
  query : Option String := none
  max : Option Int := none
  ms : Option Rat := none
  seconds : Option Rat := none
  url : Option String := none
  timeout : Option Rat := none
  quietMs : Option Rat := none
deriving DecidableEq

/-- Translation of `findImpl` from content.js: parse the query, score the
visible candidates, sort, truncate to `max` clamped to `[1, 50]`, and report
the truncated count as `total`. -/
def findImpl (page : Page) (args : Args) : FindResult :=
  let tq := effectiveQuery args.query
  if tq = "" then {matchesList := [], total := 0}
  else
    let k := max 1 (min 50 (args.max.getD 10))
    let top := ((findSortedList page tq).take k.toNat).map (fun x =>
      ({text := x.text, selector := nodeToPath x.el,
        href := if x.el.tagName = "A" then some x.el.href else none} : FindMatch))
    {matchesList := top, total := top.length}

/-! ## Click (robustClick, clickImpl) -/

/-- The result object of `clickImpl`, with absent fields as `none`. -/
structure ClickResult where
  ok : Bool
  selector : Option String := none
  error : Option String := none
  href : Option String := none
  navigate_to : Option String := none
  navigating : Option Bool := none
deriving DecidableEq

/-- Target resolution of `clickImpl`: the selector first (when truthy), then
the case-insensitive text/aria-label substring fallback over visible
button-like candidates. -/
def resolveClickEl (page : Page) (args : Args) : Option Elem :=
  let bySel :=
    match args.selector with
    | some s => if s ≠ "" then querySelector page s else none
    | none => none
  match bySel with
  | some el => some el
  | none =>
    if args.text.getD "" ≠ "" || args.query.getD "" ≠ "" then
      let pick := if args.text.getD "" ≠ "" then args.text.getD "" else args.query.getD ""
      let needle := jsTrim (strToLower pick)
      if needle ≠ "" then
        (page.qButtonsLike.filter isElementVisible).find? (fun e =>
          jsIncludes (strToLower (safeText e)) needle ||
            jsIncludes (strToLower (e.ariaLabel.getD "")) needle)
      else none
    else none

/-- The events `robustClick` dispatches on an element: the synthetic mouse
sequence followed by the native `click()` fallback (nothing for a non-element
node). -/
def robustClickEvents (el : Elem) : List String :=
  if el.nodeType = 1 then ["mousemove", "mousedown", "mouseup", "click"] else []

/-- Translation of `clickImpl` from content.js; the second component is the
list of events dispatched on the resolved element. -/
def clickImpl (page : Page) (args : Args) : ClickResult × List String :=
  match resolveClickEl page args with
  | none =>
    ({ok := false,
      selector := if args.selector.getD "" ≠ "" then args.selector else none,
      error := some "element not found"}, [])
  | some el =>
    let disabled := el.attrDisabled || el.ariaDisabled = some "true"
    let hidden :=
      match el.style with
      | none => false
      | some cs => cs.visibility = "hidden" || cs.display = "none"
    if disabled || hidden then
      ({ok := false, selector := nodeToPath el,
        error := some "element disabled or hidden"}, [])
    else
      let href := if el.tagName = "A" then (if el.href ≠ "" then some el.href else none)
                  else none
      ({ok := true, selector := nodeToPath el, href := href, navigate_to := href,
        navigating := some href.isSome}, robustClickEvents el)

/-! ## Type (typeImpl) -/

/-- The result object of `typeImpl`. -/
structure TypeResult where
  ok : Bool
  selector : Option String := none
  error : Option String := none
  typed : Option String := none
deriving DecidableEq

/-- A run of `typeImpl`: its result, the events dispatched on the element,
and the element's final `value` (in element order of assignment; `none` when
no element was resolved).  Assigning `value` on a form control does not
throw, so the `try` barriers of the source never fire in the model. -/
structure TypeRun where
  result : TypeResult
  events : List String
  finalValue : Option String
deriving DecidableEq

/-- Translation of `typeImpl` from content.js: resolve, focus, clear the
value and fire `input`, set the value and fire `input` again, fire `change`. -/
def typeImpl (page : Page) (args : Args) : TypeRun :=
  let val := if args.text.isSome then args.text else args.value
  let el :=
    match args.selector with
    | some s => if s ≠ "" then querySelector page s else none
    | none => none
  match el with
  | none =>
    {result := {ok := false, selector := args.selector, error := some "input not found"},
     events := [], finalValue := none}
  | some _ =>
    {result := {ok := true, selector := args.selector, typed := some (val.getD "")},
     events := ["input", "input", "change"],
     finalValue := some (val.getD "")}

/-! ## Waits and navigation (waitForImpl, navImpl, waitImpl and friends) -/

/-- The result object of `waitForImpl`. -/
structure WaitForResult where
  ok : Bool
  selector : Option String := none
  error : Option String := none
deriving DecidableEq

/-- Denotation of `waitForImpl` over a DOM that is static during the wait:
with a falsy selector the guard fails; with a non-positive timeout the poll
loop never runs; otherwise the element either is visible at the first poll or
never becomes so before the timeout. -/
def waitForImpl (page : Page) (args : Args) : WaitForResult :=
  if args.selector.getD "" = "" then
    {ok := false, selector := args.selector, error := some "missing selector"}
  else if max 0 (args.timeout.getD 15000) ≤ 0 then
    {ok := false, selector := args.selector, error := some "timeout"}
  else
    match querySelector page (args.selector.getD "") with
    | some el =>
      if isElementVisible el then {ok := true, selector := args.selector}
      else {ok := false, selector := args.selector, error := some "timeout"}
    | none => {ok := false, selector := args.selector, error := some "timeout"}

/-- The result object of `navImpl`. -/
structure NavResult where
  navigating : Option String
deriving DecidableEq

/-- Translation of `navImpl` (the `location.href` assignment is a navigation
side effect outside the page model). -/
def navImpl (args : Args) : NavResult :=
  match args.url with
  | none => {navigating := none}
  | some u => if u = "" then {navigating := none} else {navigating := some u}

/-- The result object of `waitForLoadImpl`. -/
structure LoadResult where
  state : String
  url : String
deriving DecidableEq

/-- Denotation of `waitForLoadImpl` over a static page: the poll loop leaves
`readyState` unchanged, and the terminal state and url are returned whether
or not the state reached `complete`. -/
def waitForLoadImpl (page : Page) (_args : Args) : LoadResult :=
  {state := page.readyState, url := page.url}

/-- The result object of `waitForIdleImpl`. -/
structure IdleResult where
  idle : Bool
deriving DecidableEq

/-- Denotation of `waitForIdleImpl` over a static page: the body length never
changes, so the first poll (which exists iff the timeout is positive) reports
idle iff the ready state is `complete`. -/
def waitForIdleImpl (page : Page) (args : Args) : IdleResult :=
  {idle := 0 < max 0 (args.timeout.getD 8000) && page.readyState = "complete"}

/-- The result object of `backImpl`. -/
structure BackResult where
  navigating : Bool
deriving DecidableEq

/-- Translation of `backImpl` (the history navigation itself is a side
effect outside the page model). -/
def backImpl : BackResult :=
  {navigating := true}

/-- The result object of `waitImpl`: the waited duration in milliseconds. -/
structure WaitResult where
  waited : Rat
deriving DecidableEq

/-- Translation of `waitImpl` from content.js: a `seconds` argument is
clamped to `[0, 60]` and converted to milliseconds, an `ms` argument is
clamped below by 0, and the default is 500 ms; the model of `sleep` is the
returned duration itself. -/
def waitImpl (args : Args) : WaitResult :=
  match args.seconds with
  | some s => {waited := max 0 (min 60 s) * 1000}
  | none =>
    match args.ms with
    | some m => {waited := max 0 m}
    | none => {waited := 500}

/-! ## Dispatch (TOOL_IMPL, the onMessage listener) -/

/-- The data payload of a tool response. -/
inductive ToolData where
  | pageStateD (s : PageState)
  | findD (r : FindResult)
  | clickD (r : ClickResult)
  | typeD (r : TypeResult)
  | waitForD (r : WaitForResult)
  | waitD (r : WaitResult)
  | navD (r : NavResult)
  | loadD (r : LoadResult)
  | idleD (r : IdleResult)
  | backD (r : BackResult)
  | errD (error : String)
deriving DecidableEq

/-- Translation of the frozen `TOOL_IMPL` registry of content.js. -/
def TOOL_IMPL : List (String × (Page → Args → ToolData)) :=
  [("get_page_state", fun p _ => .pageStateD (snapshot p)),
   ("find", fun p a => .findD (findImpl p a)),
   ("click", fun p a => .clickD (clickImpl p a).1),
   ("type", fun p a => .typeD (typeImpl p a).result),
   ("wait_for", fun p a => .waitForD (waitForImpl p a)),
   ("wait", fun _ a => .waitD (waitImpl a)),
   ("nav", fun _ a => .navD (navImpl a)),
   ("wait_for_load", fun p a => .loadD (waitForLoadImpl p a)),
   ("wait_for_idle", fun p a => .idleD (waitForIdleImpl p a)),
   ("back", fun _ _ => .backD backImpl)]

/-- An inbound message envelope (`msg.type`, `msg.tool`, `msg.args`). -/
structure Msg where
  type : Option String := none
  tool : Option String := none
  args : Option Args := none

/-- The inner `ok` flag of a tool result, for the dispatch normalization of
`click`/`type`/`wait_for` responses (`data && data.ok === false`). -/
def dataOkFlag : ToolData → Option Bool
  | .clickD r => some r.ok
  | .typeD r => some r.ok
  | .waitForD r => some r.ok
  | _ => none

/-- A response sent through `sendResponse`. -/
structure Response where
  ok : Bool
  pong : Option Bool := none
  data : Option ToolData := none
deriving DecidableEq

/-- Translation of the `chrome.runtime.onMessage` listener of content.js:
PING, RUN_TOOL with registry lookup and per-tool normalization, and the
bad-request fallback.  The model is total, so the catch-all fault barrier of
the source is unreachable. -/
def handleMessage (page : Page) (msg : Msg) : Response :=
  if msg.type = some "PING" then {ok := true, pong := some true}
  else if msg.type = some "RUN_TOOL" then
    match msg.tool with
    | none => {ok := false, data := some (.errD "unknown tool")}
    | some t =>
      match TOOL_IMPL.lookup t with
      | none => {ok := false, data := some (.errD "unknown tool")}
      | some fn =>
        let d := fn page (msg.args.getD {})
        if (t = "click" || t = "type" || t = "wait_for") && dataOkFlag d = some false then
          {ok := false, data := some d}
        else
          {ok := true, data := some d}
  else {ok := false, data := some (.errD "bad request")}

/-! ## Concrete fixtures used by the witnesses -/

/-- A button whose visible text is exactly "Book". -/
def elExact : Elem := {tagName := "BUTTON", innerText := "Book"}

/-- A button whose visible text properly contains "book". -/
def elLong : Elem := {tagName := "BUTTON", innerText := "Bookkeeping fee"}

/-- A page with the two fixture buttons, longer label first in document
order. -/
def pgFind : Page := {qButtonsLike := [elLong, elExact]}

/-- An empty text input reachable as `#t`. -/
def elInput : Elem := {tagName := "INPUT"}

/-- A page where `#t` resolves to the fixture input. -/
def pgType : Page := {selectorMap := [("#t", elInput)]}

/-- A disabled button reachable as `#d`. -/
def elDisabled : Elem := {tagName := "BUTTON", attrDisabled := true}

/-- A page where `#d` resolves to the disabled button. -/
def pgDisabled : Page := {selectorMap := [("#d", elDisabled)]}

/-- A page with no elements at all. -/
def pgEmpty : Page := {}

/-- An id-less element one level below a parentless root: its structural path
starts with a bare tag name. -/
def cexEl : Elem := {tagName := "DIV", ancestors := [{idx := 0, parentTag := "HTML"}]}

/-- An id-less anchor nested under body and a parentless root. -/
def elDeep : Elem :=
  {tagName := "A",
   ancestors := [{idx := 0, parentTag := "BODY"}, {idx := 1, parentTag := "HTML"}]}

/-- An element carrying an id. -/
def elWithId : Elem := {tagName := "BUTTON", id := "go"}

/-- A RUN_TOOL envelope naming a tool absent from the registry. -/
def msgUnknown : Msg := {type := some "RUN_TOOL", tool := some "frobnicate"}

/-- A malformed envelope (neither PING nor RUN_TOOL). -/
def msgBad : Msg := {type := some "HELLO"}

/-- The scored entry `findImpl` builds for an element. -/
def scoredEntryOf (tq : String) (el : Elem) : ScoredEntry :=
  {el := el, text := safeText el, score := scoreEl tq el}

/-! ## De-duplication lemmas -/

theorem dedupeGo_spec (f : α → String) :
    ∀ (l : List α) (seen : List String),
      (∀ x ∈ dedupeGo f l seen, f x ∉ seen) ∧
        (dedupeGo f l seen).Pairwise (fun a b => f a ≠ f b) := by
  intro l
  induction l with
  | nil => intro seen; simp [dedupeGo]
  | cons x xs ih =>
    intro seen
    simp only [dedupeGo]
    split
    · exact ih seen
    · rename_i hcond
      rw [Bool.or_eq_true, decide_eq_true_eq] at hcond
      push_neg at hcond
      have hx : f x ∉ seen := by
        intro hmem
        exact hcond.2 (List.elem_iff.mpr hmem)
      obtain ⟨ihmem, ihpw⟩ := ih (f x :: seen)
      refine ⟨?_, ?_⟩
      · intro y hy
        rcases List.mem_cons.mp hy with hyx | hyrec
        · subst hyx; exact hx
        · intro hmem
          exact ihmem y hyrec (List.mem_cons_of_mem _ hmem)
      · refine List.pairwise_cons.mpr ⟨?_, ihpw⟩
        intro y hyrec heq
        exact ihmem y hyrec (heq ▸ List.mem_cons_self _ _)

/-- After de-duplicating by a signature and taking a cap, the result is
within the cap and has pairwise distinct signatures. -/
theorem dedupe_take_capped (l : List α) (f : α → String) (n : Nat) :
    ((dedupeBySignature l f).take n).length ≤ n ∧
      ((dedupeBySignature l f).take n).Pairwise (fun a b => f a ≠ f b) :=
  ⟨List.length_take_le n _,
   List.Pairwise.sublist (List.take_sublist n _) (dedupeGo_spec f l []).2⟩

/-- C1: every category sequence returned by `snapshot` is within its cap
(buttons 400, links 400, inputs 200, headings 50, texts 300, nav links 200,
breadcrumbs 20), and no category contains two entries with the same
category-specific dedup signature (text+selector for buttons and headings,
text+href for links, nav links and breadcrumbs, selector for inputs,
lowercased text for texts). -/
theorem snapshot_caps_and_dedup (page : Page) :
    ((snapshot page).buttons.length ≤ 400 ∧
      (snapshot page).buttons.Pairwise (fun a b => btnSig a ≠ btnSig b)) ∧
    ((snapshot page).links.length ≤ 400 ∧
      (snapshot page).links.Pairwise (fun a b => linkSig a ≠ linkSig b)) ∧
    ((snapshot page).inputs.length ≤ 200 ∧
      (snapshot page).inputs.Pairwise (fun a b => inputSig a ≠ inputSig b)) ∧
    ((snapshot page).headings.length ≤ 50 ∧
      (snapshot page).headings.Pairwise (fun a b => btnSig a ≠ btnSig b)) ∧
    ((snapshot page).texts.length ≤ 300 ∧
      (snapshot page).texts.Pairwise (fun a b => textSig a ≠ textSig b)) ∧
    ((snapshot page).nav_links.length ≤ 200 ∧
      (snapshot page).nav_links.Pairwise (fun a b => linkSig a ≠ linkSig b)) ∧
    ((snapshot page).breadcrumbs.length ≤ 20 ∧
      (snapshot page).breadcrumbs.Pairwise (fun a b => linkSig a ≠ linkSig b)) :=
  ⟨dedupe_take_capped _ btnSig 400,
   dedupe_take_capped _ linkSig 400,
   dedupe_take_capped _ inputSig 200,
   dedupe_take_capped _ btnSig 50,
   dedupe_take_capped _ textSig 300,
   dedupe_take_capped _ linkSig 200,
   dedupe_take_capped _ linkSig 20⟩

/-! ## Structural-path lemmas -/

theorem zipSegs_length (tag : String) (ancs : List AncStep) :
    (zipSegs tag ancs).length = ancs.length := by
  induction ancs generalizing tag with
  | nil => rfl
  | cons a rest ih => simp [zipSegs, ih]

/-- The `nodeToPath` walk, in closed form: when the whole chain fits in the
remaining room the outermost segment is the bare root tag, otherwise the walk
emits the innermost `room` many `tag:nth-child(n)` segments. -/
theorem pathLoop_spec :
    ∀ (ancs : List AncStep) (tag : String) (room : Nat),
      (∀ a ∈ ancs, a.parentType = 1) →
      pathLoop tag 1 ancs room =
        if ancs.length < room then
          rootTagOf tag ancs :: (zipSegs tag ancs).reverse
        else ((zipSegs tag ancs).take room).reverse := by
  intro ancs
  induction ancs with
  | nil =>
    intro tag room _
    cases room with
    | zero => simp [pathLoop, zipSegs]
    | succ r => simp [pathLoop, zipSegs, rootTagOf]
  | cons a rest ih =>
    intro tag room hwf
    cases room with
    | zero => simp [pathLoop, zipSegs]
    | succ r =>
      have ha : a.parentType = 1 := hwf a (List.mem_cons_self a rest)
      have hrest : ∀ x ∈ rest, x.parentType = 1 := fun x hx =>
        hwf x (List.mem_cons_of_mem a hx)
      simp only [pathLoop, ne_eq, not_true_eq_false, if_false, ite_false]
      rw [ha, ih a.parentTag r hrest]
      by_cases hc : rest.length < r
      · rw [if_pos hc, if_pos (by simp [List.length_cons, Nat.succ_lt_succ_iff, hc])]
        simp [zipSegs, rootTagOf, List.reverse_cons, mkSeg]
      · rw [if_neg hc, if_neg (by simp [List.length_cons, Nat.succ_lt_succ_iff, hc])]
        simp [zipSegs, List.take_succ_cons, List.reverse_cons, mkSeg]

/-- C2 (amended): for an element with a non-empty id, `nodeToPath` returns
exactly `#` followed by the CSS-escaped id; for an element without an id
(whose parent chain consists of element nodes), it returns the `>`-join of at
most 6 segments, outermost first, each inner segment `tag:nth-child(n)` with
`n` the 1-based position among the parent's element children, except that the
outermost segment is the bare lowercased tag name when the walk reaches a
parentless node within the 6-segment budget; and re-invoking it on the same
DOM yields the identical string. -/
theorem nodeToPath_spec :
    (∀ el : Elem, el.nodeType = 1 → el.id ≠ "" →
      nodeToPath el = some ("#" ++ cssEscape el.id)) ∧
    (∀ el : Elem, el.nodeType = 1 → el.id = "" →
      (∀ a ∈ el.ancestors, a.parentType = 1) →
      nodeToPath el = some (String.intercalate ">" (specSegs el)) ∧
        (specSegs el).length ≤ 6) ∧
    (∀ el : Elem, nodeToPath el = nodeToPath el) := by
  refine ⟨?_, ?_, fun _ => rfl⟩
  · intro el h1 hid
    unfold nodeToPath
    rw [if_neg (by simp [h1]), if_pos hid]
  · intro el h1 hid hwf
    constructor
    · unfold nodeToPath
      rw [if_neg (by simp [h1]), if_neg (by simp [hid]), h1,
        pathLoop_spec el.ancestors el.tagName 6 hwf]
      rfl
    · unfold specSegs
      by_cases hc : el.ancestors.length < 6
      · rw [if_pos hc]
        simp [zipSegs_length]
        omega
      · rw [if_neg hc]
        simp

/-- C2 counterexample: `cexEl` has no id, yet its structural path
`html>div:nth-child(1)` is not a chain of `tag:nth-child(n)` segments — the
outermost segment is the bare tag name `html`. -/
theorem nodeToPath_claim_cex :
    cexEl.id = "" ∧ cexEl.nodeType = 1 ∧
      nodeToPath cexEl = some "html>div:nth-child(1)" ∧
      claimSegShape "html>div:nth-child(1)" = false := by
  refine ⟨rfl, rfl, ?_, by decide⟩
  decide

/-- Witness for the amended C2 theorem at concrete elements. -/
theorem nodeToPath_spec_witness :
    nodeToPath elWithId = some "#go" ∧
    (nodeToPath elDeep = some "html>body:nth-child(2)>a:nth-child(1)" ∧
      (specSegs elDeep).length ≤ 6) :=
  ⟨(nodeToPath_spec.1 elWithId rfl (by decide)).trans (by decide),
   ⟨((nodeToPath_spec.2.1 elDeep rfl rfl (by decide)).1).trans (by decide),
    (nodeToPath_spec.2.1 elDeep rfl rfl (by decide)).2⟩⟩

/-! ## Finder-scoring lemmas -/

theorem jsIncludes_self (s : String) : jsIncludes s s = true := by
  simp [jsIncludes, List.infix_refl]

theorem jsStartsWith_self (s : String) : jsStartsWith s s = true := by
  simp [jsStartsWith, List.prefix_refl]

/-- An exact match earns all three bonuses cumulatively: 20 + 10 + 3. -/
theorem scoreOne_self (tq : String) : scoreOne tq tq = 33 := by
  simp [scoreOne, jsIncludes_self, jsStartsWith_self]

/-- A non-exact text candidate earns at most the substring and prefix
bonuses: 10 + 3. -/
theorem scoreOne_ne_le (t tq : String) (h : t ≠ tq) : scoreOne t tq ≤ 13 := by
  unfold scoreOne
  rw [if_neg h]
  split_ifs <;> norm_num

/-- The domain-bias nudges add at most 2 + 2. -/
theorem nudgeScore_le (texts : List String) : nudgeScore texts ≤ 4 := by
  simp only [nudgeScore]
  split_ifs <;> norm_num

/-- With no aria-label and no title, the only text candidate is the
lowercased visible text. -/
theorem textCandidates_single (el : Elem) (ht : safeText el ≠ "")
    (ha : jsTrim (el.ariaLabel.getD "") = "")
    (hti : jsTrim (el.titleAttr.getD "") = "") :
    textCandidates el = [strToLower (safeText el)] := by
  unfold textCandidates
  simp [ht, ha, hti]

/-- A candidate whose whole visible text equals the query scores at least
33. -/
theorem scoreEl_exact_ge (tq : String) (el : Elem) (ht : safeText el ≠ "")
    (ha : jsTrim (el.ariaLabel.getD "") = "")
    (hti : jsTrim (el.titleAttr.getD "") = "")
    (heq : strToLower (safeText el) = tq) :
    33 ≤ scoreEl tq el := by
  unfold scoreEl
  rw [textCandidates_single el ht ha hti, heq]
  simp [scoreOne_self]

/-- A candidate whose visible text is not an exact match scores at most
13 + 4. -/
theorem scoreEl_ne_le (tq : String) (el : Elem) (ht : safeText el ≠ "")
    (ha : jsTrim (el.ariaLabel.getD "") = "")
    (hti : jsTrim (el.titleAttr.getD "") = "")
    (hne : strToLower (safeText el) ≠ tq) :
    scoreEl tq el ≤ 17 := by
  unfold scoreEl
  rw [textCandidates_single el ht ha hti]
  have h1 := scoreOne_ne_le (strToLower (safeText el)) tq hne
  have h2 := nudgeScore_le [strToLower (safeText el)]
  simp only [List.map_cons, List.map_nil, List.sum_cons, List.sum_nil]
  omega

/-- C3: the scored list of `findImpl` is sorted descending by score with
ties broken by shorter visible text, the score being the cumulative sum of
the +20 exact / +10 substring / +3 prefix bonuses over the text candidates
(plus the fixed nudges); consequently a candidate whose entire visible text
equals the query occurs strictly before one in which the query is only a
proper substring of a longer text, all else equal (no aria-label or title on
either). -/
theorem find_ranking :
    (∀ (page : Page) (tq : String),
      List.Sorted scoredLEP (findSortedList page tq)) ∧
    (∀ (page : Page) (tq : String) (A B : Elem) (i j : Nat),
      jsTrim (A.ariaLabel.getD "") = "" → jsTrim (A.titleAttr.getD "") = "" →
      jsTrim (B.ariaLabel.getD "") = "" → jsTrim (B.titleAttr.getD "") = "" →
      safeText A ≠ "" → strToLower (safeText A) = tq →
      safeText B ≠ "" → jsIncludes (strToLower (safeText B)) tq = true →
      strToLower (safeText B) ≠ tq →
      (findSortedList page tq)[i]? = some (scoredEntryOf tq A) →
      (findSortedList page tq)[j]? = some (scoredEntryOf tq B) →
      i < j) := by
  constructor
  · intro page tq
    exact List.sorted_insertionSort scoredLEP (findScored page tq)
  · intro page tq A B i j haA htiA haB htiB htA heqA htB _hincB hneB hiA hjB
    have hpw : List.Pairwise scoredLEP (findSortedList page tq) :=
      List.sorted_insertionSort scoredLEP (findScored page tq)
    obtain ⟨hi, hgi⟩ := List.getElem?_eq_some.mp hiA
    obtain ⟨hj, hgj⟩ := List.getElem?_eq_some.mp hjB
    have hA33 : 33 ≤ scoreEl tq A := scoreEl_exact_ge tq A htA haA htiA heqA
    have hB17 : scoreEl tq B ≤ 17 := scoreEl_ne_le tq B htB haB htiB hneB
    by_contra hnot
    have hji : j < i ∨ j = i := by omega
    rcases hji with hji | hje
    · have hle := List.pairwise_iff_getElem.mp hpw j i hj hi hji
      rw [hgj, hgi] at hle
      rcases hle with hlt | ⟨heq, _⟩
      · simp only [scoredEntryOf] at hlt
        omega
      · simp only [scoredEntryOf] at heq
        omega
    · subst hje
      have : scoredEntryOf tq A = scoredEntryOf tq B := hgi.symm.trans hgj
      have hs : scoreEl tq A = scoreEl tq B := congrArg ScoredEntry.score this
      omega

/-- Witness for C3 on a concrete page: the exact-match button ranks at
position 0, strictly above the longer proper-superstring label at
position 1. -/
theorem find_ranking_witness :
    (findSortedList pgFind "book")[0]? = some (scoredEntryOf "book" elExact) ∧
    (findSortedList pgFind "book")[1]? = some (scoredEntryOf "book" elLong) ∧
    (0 : Nat) < 1 :=
  ⟨by decide, by decide,
   find_ranking.2 pgFind "book" elExact elLong 0 1 (by decide) (by decide)
     (by decide) (by decide) (by decide) (by decide) (by decide) (by decide)
     (by decide) (by decide) (by decide)⟩

/-! ## Typing theorems -/

/-- C4 counterexample: typing "abc" into the empty fixture input sets the
value to "abc" and returns ok, but dispatches two `input` events (one after
clearing, one after setting), so the claimed single `input` dispatch is
false. -/
theorem typeImpl_claim_cex :
    (typeImpl pgType {selector := some "#t", text := some "abc"}).events =
        ["input", "input", "change"] ∧
      ¬ ((typeImpl pgType {selector := some "#t", text := some "abc"}).finalValue =
            some "abc" ∧
         (typeImpl pgType {selector := some "#t", text := some "abc"}).events.count
            "input" = 1 ∧
         (typeImpl pgType {selector := some "#t", text := some "abc"}).events.count
            "change" = 1 ∧
         (typeImpl pgType {selector := some "#t", text := some "abc"}).result =
            {ok := true, selector := some "#t", typed := some "abc"}) := by
  constructor
  · decide
  · intro h
    have := h.2.1
    revert this
    decide

/-- C4 (amended): for every `type` call whose non-empty selector resolves,
the element's value afterwards is exactly the supplied text, exactly two
`input` events and one `change` event are dispatched on the element, and the
call returns ok with the selector and the typed text. -/
theorem typeImpl_spec (page : Page) (s txt : String) (el : Elem)
    (hs : s ≠ "") (h : querySelector page s = some el) :
    typeImpl page {selector := some s, text := some txt} =
      {result := {ok := true, selector := some s, typed := some txt},
       events := ["input", "input", "change"],
       finalValue := some txt} := by
  unfold typeImpl
  simp [hs, h]

/-- Witness for the amended C4 theorem at the fixture page. -/
theorem typeImpl_spec_witness :
    querySelector pgType "#t" = some elInput ∧
    typeImpl pgType {selector := some "#t", text := some "abc"} =
      {result := {ok := true, selector := some "#t", typed := some "abc"},
       events := ["input", "input", "change"],
       finalValue := some "abc"} :=
  ⟨by decide, typeImpl_spec pgType "#t" "abc" elInput (by decide) (by decide)⟩

/-! ## Click theorems -/

/-- C5: a `click` whose selector resolves to a disabled, aria-disabled or
computed-hidden element returns ok:false with error "element disabled or
hidden" and dispatches no mouse events (no mousemove, mousedown, mouseup or
native click). -/
theorem clickImpl_disabled (page : Page) (s : String) (el : Elem) (args : Args)
    (hsel : args.selector = some s) (hs : s ≠ "")
    (hq : querySelector page s = some el)
    (hdis : (el.attrDisabled = true ∨ el.ariaDisabled = some "true") ∨
      ∃ cs, el.style = some cs ∧ (cs.visibility = "hidden" ∨ cs.display = "none")) :
    clickImpl page args =
      ({ok := false, selector := nodeToPath el,
        error := some "element disabled or hidden"}, []) := by
  have hres : resolveClickEl page args = some el := by
    unfold resolveClickEl
    simp [hsel, hs, hq]
  unfold clickImpl
  rw [hres]
  have hcond : (el.attrDisabled || el.ariaDisabled = some "true") = true ∨
      (match el.style with
       | none => false
       | some cs => cs.visibility = "hidden" || cs.display = "none") = true := by
    rcases hdis with (h | h) | ⟨cs, hcs, h | h⟩
    · left; simp [h]
    · left; simp [h]
    · right; rw [hcs]; simp [h]
    · right; rw [hcs]; simp [h]
  rcases hcond with h | h <;> simp [h]

/-- Witness for C5 at the fixture page with the disabled button. -/
theorem clickImpl_disabled_witness :
    querySelector pgDisabled "#d" = some elDisabled ∧
    clickImpl pgDisabled {selector := some "#d"} =
      ({ok := false, selector := some "button",
        error := some "element disabled or hidden"}, []) :=
  ⟨by decide, by
    rw [clickImpl_disabled pgDisabled "#d" elDisabled {selector := some "#d"}
      rfl (by decide) (by decide) (Or.inl (Or.inl (by decide)))]
    decide⟩

/-- C6: a `click` call whose truthy selector resolves to nothing and whose
text/query fallback also resolves to nothing returns ok:false with the
supplied selector and error "element not found" (the model is a total
function, so the call cannot throw), and dispatches no events. -/
theorem clickImpl_not_found (page : Page) (args : Args) (s : String)
    (hsel : args.selector = some s) (hs : s ≠ "")
    (hres : resolveClickEl page args = none) :
    clickImpl page args =
      ({ok := false, selector := some s, error := some "element not found"}, []) := by
  unfold clickImpl
  rw [hres]
  simp [hsel, hs]

/-- Witness for C6: clicking `#missing` on the empty page. -/
theorem clickImpl_not_found_witness :
    resolveClickEl pgEmpty {selector := some "#missing"} = none ∧
    clickImpl pgEmpty {selector := some "#missing"} =
      ({ok := false, selector := some "#missing",
        error := some "element not found"}, []) :=
  ⟨by decide,
   clickImpl_not_found pgEmpty {selector := some "#missing"} "#missing" rfl
     (by decide) (by decide)⟩

/-! ## Dispatch theorems -/

/-- C7: a RUN_TOOL request whose tool name is absent from the fixed registry
is answered ok:false with error "unknown tool", and a message that is neither
a PING nor a RUN_TOOL request is answered ok:false with error
"bad request". -/
theorem dispatch_errors :
    (∀ (page : Page) (msg : Msg) (t : String),
      msg.type = some "RUN_TOOL" → msg.tool = some t → TOOL_IMPL.lookup t = none →
      handleMessage page msg =
        {ok := false, data := some (ToolData.errD "unknown tool")}) ∧
    (∀ (page : Page) (msg : Msg),
      msg.type ≠ some "PING" → msg.type ≠ some "RUN_TOOL" →
      handleMessage page msg =
        {ok := false, data := some (ToolData.errD "bad request")}) := by
  constructor
  · intro page msg t htype htool hlook
    unfold handleMessage
    rw [htype, htool]
    rw [if_neg (by decide), if_pos rfl]
    simp [hlook]
  · intro page msg hping hrun
    unfold handleMessage
    rw [if_neg hping, if_neg hrun]

/-- Witness for C7: an unknown tool name and a malformed envelope, each at a
concrete message. -/
theorem dispatch_errors_witness :
    TOOL_IMPL.lookup "frobnicate" = none ∧
    handleMessage pgEmpty msgUnknown =
      {ok := false, data := some (ToolData.errD "unknown tool")} ∧
    handleMessage pgEmpty msgBad =
      {ok := false, data := some (ToolData.errD "bad request")} :=
  ⟨rfl,
   dispatch_errors.1 pgEmpty msgUnknown "frobnicate" rfl rfl rfl,
   dispatch_errors.2 pgEmpty msgBad (by decide) (by decide)⟩

/-! ## Finder-truncation theorem -/

/-- C8: for a `find` call with a non-empty effective query, the number of
returned matches is at most `max` clamped to `[1, 50]`, and the returned
`total` equals the number of returned matches (the post-truncation count). -/
theorem findImpl_truncation (page : Page) (args : Args)
    (h : effectiveQuery args.query ≠ "") :
    (findImpl page args).matchesList.length ≤
        (max 1 (min 50 (args.max.getD 10))).toNat ∧
      (findImpl page args).total = (findImpl page args).matchesList.length := by
  unfold findImpl
  rw [if_neg h]
  refine ⟨?_, rfl⟩
  simp only [List.length_map]
  exact List.length_take_le _ _

/-- Witness for C8 at the fixture page for the query "book". -/
theorem findImpl_truncation_witness :
    effectiveQuery (some "book") ≠ "" ∧
    ((findImpl pgFind {query := some "book"}).matchesList.length ≤
        (max 1 (min 50 ((none : Option Int).getD 10))).toNat ∧
      (findImpl pgFind {query := some "book"}).total =
        (findImpl pgFind {query := some "book"}).matchesList.length) :=
  ⟨by decide, findImpl_truncation pgFind {query := some "book"} (by decide)⟩

/-! ## Wait theorems -/

/-- C9: a `wait` call with a numeric `seconds` field waits exactly
`min(60, max(0, s))` seconds (expressed in milliseconds), hence never more
than 60 seconds, and returns that duration in the `waited` field; in
particular 120 seconds are clamped to 60000 ms. -/
theorem waitImpl_seconds_clamp (s : Rat) (m : Option Rat) :
    waitImpl {seconds := some s, ms := m} = {waited := min 60 (max 0 s) * 1000} ∧
      (waitImpl {seconds := some s, ms := m}).waited ≤ 60000 ∧
      waitImpl {seconds := some 120} = {waited := 60000} := by
  have hcomm : max (0 : Rat) (min 60 s) = min 60 (max 0 s) := by
    rw [max_min_distrib_left]
    norm_num
  refine ⟨by simp [waitImpl, hcomm], ?_, by norm_num [waitImpl]⟩
  show max (0 : Rat) (min 60 s) * 1000 ≤ 60000
  have h1 : max (0 : Rat) (min 60 s) ≤ 60 :=
    max_le (by norm_num) (min_le_left _ _)
  calc max (0 : Rat) (min 60 s) * 1000 ≤ 60 * 1000 :=
        mul_le_mul_of_nonneg_right h1 (by norm_num)
    _ = 60000 := by norm_num

/-- C10: a `wait` call with a numeric `ms` field and no `seconds` field
waits exactly `max(0, ms)` milliseconds — no upper clamp applies, so the ms
form can request an arbitrarily long delay. -/
theorem waitImpl_ms_unclamped (n : Rat) :
    waitImpl {ms := some n, seconds := none} = {waited := max 0 n} ∧
      ∀ bound : Rat, ∃ m : Rat,
        (waitImpl {ms := some m, seconds := none}).waited > bound := by
  refine ⟨rfl, ?_⟩
  intro b
  refine ⟨b + 1, ?_⟩
  show b < max 0 (b + 1)
  calc b < b + 1 := by linarith
    _ ≤ max 0 (b + 1) := le_max_right _ _
